import Mathlib

/-!
Verification development for the grove storage client.

JavaScript strings are modelled as lists of characters, byte buffers as
lists of UInt8, and every backend interaction as an explicit oracle
argument so that the client logic itself is a pure function.
-/

namespace Grove

/-- JavaScript strings are modelled as lists of characters. -/
abbrev Str := List Char

/-- Embeds a Lean string literal into the character-list string model. -/
def chars (s : String) : Str := s.data

/-- Environment configuration, from environments.ts. -/
structure EnvironmentConfig where
  name : Str
  backend : Str
  defaultChainId : Int
  propagationTimeout : Nat
  propagationPollingInterval : Nat
deriving DecidableEq

/-- The production environment configuration, from environments.ts. -/
def production : EnvironmentConfig :=
  { name := chars "production"
    backend := chars "https://api.grove.storage"
    defaultChainId := 232
    propagationTimeout := 10000
    propagationPollingInterval := 500 }

/-- The Lens URI scheme, from utils.ts. -/
def LENS_SCHEME : Str := chars "lens"

/-- The full URI scheme marker, from utils.ts. -/
def LENS_URI_SUFFIX : Str := LENS_SCHEME ++ chars "://"

/-- Normalization of a storage key or URI, from extractStorageKey in
utils.ts: strips the scheme marker when present, identity otherwise. -/
def extractStorageKey (storageKeyOrUri : Str) : Str :=
  if LENS_URI_SUFFIX.isPrefixOf storageKeyOrUri then
    storageKeyOrUri.drop LENS_URI_SUFFIX.length
  else
    storageKeyOrUri

/-- A resource record, from types.ts. -/
structure Resource where
  uri : Str
  storageKey : Str
  gatewayUrl : Str
deriving DecidableEq

/-- Constructs a resource from a storage key, from resourceFrom in utils.ts. -/
def resourceFrom (storageKey : Str) (env : EnvironmentConfig) : Resource :=
  { storageKey := storageKey
    gatewayUrl := env.backend ++ chars "/" ++ storageKey
    uri := LENS_SCHEME ++ chars "://" ++ storageKey }

/-- Resolution of a storage key or URI to a gateway URL, from
StorageClient.resolve. -/
def resolve (env : EnvironmentConfig) (storageKeyOrUri : Str) : Str :=
  env.backend ++ chars "/" ++ extractStorageKey storageKeyOrUri

/-- A minimal JSON value model for the wire documents the client builds. -/
inductive Json where
  | str (value : Str)
  | num (value : Int)
  | arr (items : List Json)
  | obj (fields : List (Str × Json))

/-- A JSON object on the wire: ordered field list, as JavaScript object
literals preserve insertion order. -/
abbrev WireObject := List (Str × Json)

/-- The closed ACL policy union, from the AclConfig type in types.ts. -/
inductive AclTemplate where
  | genericAcl (chainId : Int) (contractAddress : Str) (functionSig : Str) (params : List Json)
  | immutable (chainId : Int)
  | lensAccount (lensAccount : Str) (chainId : Int)
  | walletAddress (walletAddress : Str) (chainId : Int)

/-- The immutable ACL builder, from builders.ts. -/
def immutable (chainId : Int) : AclTemplate := .immutable chainId

/-- ACL resolution, from StorageClient.resolveAcl: a missing ACL option
defaults to the immutable policy bound to the environment default chain. -/
def resolveAcl (acl : Option AclTemplate) (env : EnvironmentConfig) : AclTemplate :=
  acl.getD (immutable env.defaultChainId)

/-- Wire serialization of an ACL policy, from createAclTemplateContent in
utils.ts. The match is exhaustive over the closed union, so the source
default branch (a fatal invariant failure on an unknown discriminant) is
unreachable here by construction. -/
def createAclTemplateContent (acl : AclTemplate) : WireObject :=
  match acl with
  | .genericAcl chainId contractAddress functionSig params =>
    [(chars "template", .str (chars "generic_acl")),
     (chars "contract_address", .str contractAddress),
     (chars "chain_id", .num chainId),
     (chars "network_type", .str (chars "evm")),
     (chars "function_sig", .str functionSig),
     (chars "params", .arr params)]
  | .lensAccount lensAccount chainId =>
    [(chars "template", .str (chars "lens_account")),
     (chars "lens_account", .str lensAccount),
     (chars "chain_id", .num chainId)]
  | .walletAddress walletAddress chainId =>
    [(chars "template", .str (chars "wallet_address")),
     (chars "wallet_address", .str walletAddress),
     (chars "chain_id", .num chainId)]
  | .immutable chainId =>
    [(chars "template", .str (chars "immutable")),
     (chars "chain_id", .num chainId)]

/-- A web File value: name, MIME type, and content bytes. The size
property of a File is the byte length of its content, and its stream
yields exactly those bytes. -/
structure File where
  name : Str
  type : Str
  content : List UInt8
deriving DecidableEq

/-- The size property of a File: the byte length of its content. -/
def File.size (f : File) : Nat := f.content.length

/-- A named multipart entry, from the MultipartEntry type in utils.ts. -/
structure MultipartEntry where
  name : Str
  file : File
deriving DecidableEq

/-- UTF-8 encoding of one character, as performed by TextEncoder. -/
def utf8EncodeChar (c : Char) : List UInt8 :=
  let n := c.toNat
  if n < 0x80 then
    [UInt8.ofNat n]
  else if n < 0x800 then
    [UInt8.ofNat (0xC0 ||| (n >>> 6)), UInt8.ofNat (0x80 ||| (n &&& 0x3F))]
  else if n < 0x10000 then
    [UInt8.ofNat (0xE0 ||| (n >>> 12)), UInt8.ofNat (0x80 ||| ((n >>> 6) &&& 0x3F)),
     UInt8.ofNat (0x80 ||| (n &&& 0x3F))]
  else
    [UInt8.ofNat (0xF0 ||| (n >>> 18)), UInt8.ofNat (0x80 ||| ((n >>> 12) &&& 0x3F)),
     UInt8.ofNat (0x80 ||| ((n >>> 6) &&& 0x3F)), UInt8.ofNat (0x80 ||| (n &&& 0x3F))]

/-- UTF-8 encoding of a string, as performed by TextEncoder.encode. -/
def utf8Encode (s : Str) : List UInt8 := s.flatMap utf8EncodeChar

/-- The CRLF line terminator used by the multipart framing. -/
def CRLF : Str := chars "\r\n"

/-- The boundary line opening each part, from multipartStream in utils.ts. -/
def boundaryLine (boundary : Str) : Str := chars "--" ++ boundary ++ CRLF

/-- The Content-Disposition header line of a part, from multipartStream. -/
def contentDispositionLine (name filename : Str) : Str :=
  chars "Content-Disposition: form-data; name=\"" ++ name ++
    chars "\"; filename=\"" ++ filename ++ chars "\"" ++ CRLF

/-- The Content-Type header line of a part followed by the blank line,
from multipartStream. -/
def contentTypeLine (tp : Str) : Str := chars "Content-Type: " ++ tp ++ CRLF ++ CRLF

/-- The closing boundary line, from multipartStream. -/
def closingLine (boundary : Str) : Str := chars "--" ++ boundary ++ chars "--" ++ CRLF

/-- One chunk yielded by the multipart generator: either a framing string
or raw file bytes. -/
inductive StreamChunk where
  | text (s : Str)
  | bytes (b : List UInt8)
deriving DecidableEq

/-- The multipart generator, from multipartStream in utils.ts: for each
entry in order it yields the boundary line, the two header lines, the
file content bytes, and a trailing CRLF; then the closing boundary. -/
def multipartStream (entries : List MultipartEntry) (boundary : Str) : List StreamChunk :=
  match entries with
  | [] => [.text (closingLine boundary)]
  | e :: rest =>
    .text (boundaryLine boundary) ::
    .text (contentDispositionLine e.name e.file.name) ::
    .text (contentTypeLine e.file.type) ::
    .bytes e.file.content ::
    .text CRLF ::
    multipartStream rest boundary

/-- The bytes a chunk contributes to the wire: strings go through
TextEncoder, byte chunks are enqueued unchanged, from
createMultipartStream in utils.ts. -/
def chunkBytes (c : StreamChunk) : List UInt8 :=
  match c with
  | .text s => utf8Encode s
  | .bytes b => b

/-- The full byte sequence emitted by the multipart stream. -/
def streamedBytes (entries : List MultipartEntry) (boundary : Str) : List UInt8 :=
  (multipartStream entries boundary).flatMap chunkBytes

/-- The declared total size of the multipart body, from
computeMultipartSize in utils.ts: per entry the encoded byte lengths of
the boundary line, the two header lines and the trailing CRLF plus the
file size, and finally the closing boundary line. -/
def computeMultipartSize (entries : List MultipartEntry) (boundary : Str) : Nat :=
  (entries.foldl
    (fun size e =>
      size + (utf8Encode (boundaryLine boundary)).length
        + (utf8Encode (contentDispositionLine e.name e.file.name)).length
        + (utf8Encode (contentTypeLine e.file.type)).length
        + e.file.size
        + (utf8Encode CRLF).length)
    0) + (utf8Encode (closingLine boundary)).length

/-- The framing bytes of one part: a reference expression used to state
that parts appear in order, each wrapped by the boundary. -/
def partBytes (boundary : Str) (e : MultipartEntry) : List UInt8 :=
  utf8Encode (boundaryLine boundary) ++
  utf8Encode (contentDispositionLine e.name e.file.name) ++
  utf8Encode (contentTypeLine e.file.type) ++
  e.file.content ++
  utf8Encode CRLF

/-- The backend-reported status enumeration, from the Status type in
types.ts. -/
inductive StatusValue where
  | done
  | error_delete
  | error_edit
  | error_upload
  | idle
  | new
  | pending
  | unauthorized
deriving DecidableEq

/-- A status record returned by GET backend/status/storageKey, from the
Status type in types.ts. -/
structure Status where
  storageKey : Str
  status : StatusValue
  progress : Int
deriving DecidableEq

/-- Terminal error statuses, the cases grouped together by the switch in
waitForPropagation. -/
def isErrorStatus (s : StatusValue) : Bool :=
  match s with
  | .error_upload | .error_edit | .error_delete | .unauthorized => true
  | _ => false

/-- Non-terminal statuses, the default branch of the switch in
waitForPropagation. -/
def isNonTerminal (s : StatusValue) : Bool :=
  match s with
  | .new | .pending | .idle => true
  | _ => false

/-- The outcome of one waitForPropagation run. -/
inductive PropagationOutcome where
  | success
  | statusError (status : StatusValue)
  | transportError (message : Str)
  | timeoutError (uri : Str)
  | fuelExhausted
deriving DecidableEq

/-- The observable result of a waitForPropagation run: the outcome
together with the number of status queries issued and the number of
polling-interval delays performed. -/
structure LoopResult where
  outcome : PropagationOutcome
  pollsMade : Nat
  delaysMade : Nat
deriving DecidableEq

/-- The polling context of waitForPropagation: the client environment,
the result of the i-th status query (an error value when the query itself
fails at the transport level), and the wall-clock duration of the i-th
query. -/
structure PropagationContext where
  env : EnvironmentConfig
  polls : Nat → Except Str Status
  durs : Nat → Nat

/-- The polling loop of UploadResponse.waitForPropagation in types.ts.
One loop iteration: if the elapsed time since the first check has reached
the propagation timeout, fail with a timeout error naming the resource
URI; otherwise query the status; a done status succeeds; any of the four
error statuses fails immediately with that status; a transport failure of
the query is rethrown and terminal; otherwise wait one polling interval
and re-enter the loop. The fuel argument only bounds the recursion; the
timeout theorems show it is never exhausted when the polling interval is
positive. -/
def waitLoop (ctx : PropagationContext) (resource : Resource) :
    Nat → Nat → Nat → LoopResult
  | 0, _, _ => ⟨.fuelExhausted, 0, 0⟩
  | fuel + 1, i, elapsed =>
    if elapsed < ctx.env.propagationTimeout then
      match ctx.polls i with
      | .error e => ⟨.transportError e, 1, 0⟩
      | .ok st =>
        if st.status = .done then ⟨.success, 1, 0⟩
        else if isErrorStatus st.status then ⟨.statusError st.status, 1, 0⟩
        else
          let r := waitLoop ctx resource fuel (i + 1)
            (elapsed + ctx.durs i + ctx.env.propagationPollingInterval)
          ⟨r.outcome, r.pollsMade + 1, r.delaysMade + 1⟩
    else ⟨.timeoutError resource.uri, 0, 0⟩

/-- UploadResponse.waitForPropagation: runs the polling loop from elapsed
time zero with enough fuel for every iteration within the timeout
budget. -/
def waitForPropagation (ctx : PropagationContext) (resource : Resource) : LoopResult :=
  waitLoop ctx resource (ctx.env.propagationTimeout + 1) 0 0

/-- JSON escaping of a single character inside a string literal, as
performed by JSON.stringify for the characters appearing here. -/
def jsonEscapeChar (c : Char) : Str :=
  if c = '"' then ['\\', '"']
  else if c = '\\' then ['\\', '\\']
  else [c]

/-- JSON string literal serialization. -/
def jsonQuote (s : Str) : Str :=
  '"' :: s.flatMap jsonEscapeChar ++ ['"']

mutual

/-- JSON.stringify over the minimal JSON model. -/
def jsonStringify : Json → Str
  | .str s => jsonQuote s
  | .num n => chars (toString n)
  | .arr items => chars "[" ++ jsonStringifyItems items ++ chars "]"
  | .obj fields => chars "\x7b" ++ jsonStringifyFields fields ++ chars "\x7d"

/-- Comma-joined serialization of array items. -/
def jsonStringifyItems : List Json → Str
  | [] => []
  | [j] => jsonStringify j
  | j :: rest => jsonStringify j ++ chars "," ++ jsonStringifyItems rest

/-- Comma-joined serialization of object fields. -/
def jsonStringifyFields : List (Str × Json) → Str
  | [] => []
  | [(n, j)] => jsonQuote n ++ chars ":" ++ jsonStringify j
  | (n, j) :: rest => jsonQuote n ++ chars ":" ++ jsonStringify j ++ chars "," ++
      jsonStringifyFields rest

end

/-- Unified error model: the invariant failures raised by invariant and
never in utils.ts, the client errors built by
StorageClientError.fromResponse, the authorization errors built by
AuthorizationError.fromResponse, and a signer failure propagated
unmodified from the external signer. -/
inductive ClientError where
  | invariantError (message : Str)
  | storageClientError (message : Str)
  | authorizationError (message : Str)
  | signerFailure (error : Str)
deriving DecidableEq

/-- A transport response as seen by the error constructors: the ok flag,
the message field when the body decodes as JSON, and the raw body
text. -/
structure Response where
  ok : Bool
  decodedMessage : Option Str
  text : Str
deriving DecidableEq

/-- The message selection of BaseError.fromResponse in errors.ts: the
decoded message field when the body parses as JSON, the raw response
text otherwise. -/
def errorMessageFromResponse (response : Response) : Str :=
  match response.decodedMessage with
  | some message => message
  | none => response.text

/-- StorageClientError.fromResponse in errors.ts. -/
def storageClientErrorFromResponse (response : Response) : ClientError :=
  .storageClientError (errorMessageFromResponse response)

/-- AuthorizationError.fromResponse in errors.ts. -/
def authorizationErrorFromResponse (response : Response) : ClientError :=
  .authorizationError (errorMessageFromResponse response)

/-- The lens-acl.json multipart entry, from createAclEntry in utils.ts. -/
def createAclEntry (template : AclTemplate) : MultipartEntry :=
  { name := chars "lens-acl.json"
    file :=
      { name := chars "lens-acl.json"
        type := chars "application/json"
        content := utf8Encode (jsonStringify (.obj (createAclTemplateContent template))) } }

/-- The default index content, from createDefaultIndexContent in
utils.ts: the object listing the storage keys of the sibling files. -/
def createDefaultIndexContent (files : List Resource) : Json :=
  .obj [(chars "files", .arr (files.map (fun file => .str file.storageKey)))]

/-- createIndexFile in utils.ts: a JSON file named index.json. -/
def createIndexFile (content : Json) : File :=
  { name := chars "index.json"
    type := chars "application/json"
    content := utf8Encode (jsonStringify content) }

/-- The builder state, from MultipartEntriesBuilder in utils.ts: the
pre-allocated resources, the next-key cursor, and the accumulated
entries. -/
structure MultipartEntriesBuilder where
  allocations : List Resource
  idx : Nat
  entries : List MultipartEntry
deriving DecidableEq

/-- MultipartEntriesBuilder.from. -/
def MultipartEntriesBuilder.ofAllocations (allocations : List Resource) :
    MultipartEntriesBuilder :=
  { allocations := allocations, idx := 0, entries := [] }

/-- MultipartEntriesBuilder.withFile: binds the file to the storage key
of the allocation at the cursor and advances the cursor; when the
allocations are exhausted this is the never invariant failure. -/
def MultipartEntriesBuilder.withFile (b : MultipartEntriesBuilder) (file : File) :
    Except ClientError MultipartEntriesBuilder :=
  match b.allocations.get? b.idx with
  | some resource =>
    .ok { b with idx := b.idx + 1
                 entries := b.entries ++ [{ name := resource.storageKey, file := file }] }
  | none => .error (.invariantError (chars "Unexpected file, no storage key available"))

/-- MultipartEntriesBuilder.withFiles: withFile over each file in order. -/
def MultipartEntriesBuilder.withFiles (b : MultipartEntriesBuilder) (files : List File) :
    Except ClientError MultipartEntriesBuilder :=
  match files with
  | [] => .ok b
  | file :: rest =>
    match b.withFile file with
    | .ok b2 => b2.withFiles rest
    | .error e => .error e

/-- MultipartEntriesBuilder.withAclTemplate: appends the lens-acl.json
entry. -/
def MultipartEntriesBuilder.withAclTemplate (b : MultipartEntriesBuilder)
    (template : AclTemplate) : MultipartEntriesBuilder :=
  { b with entries := b.entries ++ [createAclEntry template] }

/-- The argument accepted by withIndexFile: a content factory, a
pre-built file, or the literal true. -/
inductive IndexArg where
  | createContent (create : List Resource → Json)
  | file (f : File)
  | literalTrue

/-- The index file produced by withIndexFile before the name check: the
given file as-is, or a generated index.json from the default listing or
the factory applied to the allocations. -/
def indexFileOf (index : IndexArg) (allocations : List Resource) : File :=
  match index with
  | .file f => f
  | .literalTrue => createIndexFile (createDefaultIndexContent allocations)
  | .createContent create => createIndexFile (create allocations)

/-- MultipartEntriesBuilder.withIndexFile: builds the index file, checks
the invariant that it is named index.json, and binds it like any other
file part. -/
def MultipartEntriesBuilder.withIndexFile (b : MultipartEntriesBuilder)
    (index : IndexArg) : Except ClientError MultipartEntriesBuilder :=
  let file := indexFileOf index b.allocations
  if file.name = chars "index.json" then b.withFile file
  else .error (.invariantError (chars "Index file must be named index.json"))

/-- The multipart request body: the streaming encoding carrying the
framed chunks and boundary, or the buffered FormData fallback carrying
the entries in order. -/
inductive RequestBody where
  | stream (chunks : List StreamChunk) (boundary : Str)
  | formData (entries : List MultipartEntry)
deriving DecidableEq

/-- The RequestInit value produced for a multipart request. -/
structure RequestInit where
  method : Str
  contentType : Option Str
  contentLength : Option Nat
  body : RequestBody
deriving DecidableEq

/-- Process state observed by the capability probe: how many times
detectStreamSupport has executed. -/
structure ProbeState where
  probeRuns : Nat
deriving DecidableEq

/-- createMultipartRequestInit in utils.ts. Every invocation awaits
detectStreamSupport() (the probe result is the streamSupported argument,
its execution is recorded in the probe state); with stream support the
streaming body is used together with the boundary Content-Type and the
computed Content-Length, otherwise the FormData fallback body with
neither header. The boundary is passed explicitly in place of the
Math.random derived token. -/
def createMultipartRequestInit (method : Str) (streamSupported : Bool)
    (entries : List MultipartEntry) (boundary : Str) (st : ProbeState) :
    RequestInit × ProbeState :=
  let st2 : ProbeState := { probeRuns := st.probeRuns + 1 }
  if streamSupported then
    ({ method := method
       contentType := some (chars "multipart/form-data; boundary=" ++ boundary)
       contentLength := some (computeMultipartSize entries boundary)
       body := .stream (multipartStream entries boundary) boundary }, st2)
  else
    ({ method := method
       contentType := none
       contentLength := none
       body := .formData entries }, st2)

/-- The authorization action, from AuthorizationService. -/
inductive AuthAction where
  | edit
  | delete
deriving DecidableEq

/-- A backend challenge, from the Challenge type in
AuthorizationService.ts. -/
structure Challenge where
  message : Str
  secret_random : Str
deriving DecidableEq

/-- A signed challenge, the challenge spread together with the
signature. -/
structure SignedChallenge where
  message : Str
  secret_random : Str
  signature : Str
deriving DecidableEq

/-- The challenge submission response, from SignedChallengeResponse. -/
structure SignedChallengeResponse where
  challenge_cid : Str
deriving DecidableEq

/-- The authorization result, from the Authorization type. -/
structure Authorization where
  challengeId : Str
  secret : Str
deriving DecidableEq

/-- A backend boundary reply: the parsed success value, or the
non-success transport response. -/
inductive BackendReply (α : Type) where
  | success (value : α)
  | failure (response : Response)

/-- The boundary calls made by AuthorizationService.authorize: the
challenge request, the external signer (whose failure carries the thrown
value), and the signed-challenge submission. -/
structure AuthOracles where
  challengeNew : AuthAction → Str → BackendReply Challenge
  signMessage : Str → Except Str Str
  challengeSign : SignedChallenge → BackendReply SignedChallengeResponse

/-- The boundary steps of one authorize run, in execution order. -/
inductive AuthStep where
  | challengeRequested
  | signatureRequested
  | challengeSubmitted
deriving DecidableEq

/-- AuthorizationService.authorize: request a challenge, sign its
message, submit the signed challenge, and return the challenge_cid of
the submission response together with the secret_random of the
challenge. Each non-success backend reply raises an AuthorizationError
from the response and aborts; a signer failure propagates unmodified.
The step list records the boundary calls actually performed, in
order. -/
def authorize (o : AuthOracles) (action : AuthAction) (storageKey : Str) :
    Except ClientError Authorization × List AuthStep :=
  match o.challengeNew action storageKey with
  | .failure response =>
    (.error (authorizationErrorFromResponse response), [.challengeRequested])
  | .success challenge =>
    match o.signMessage challenge.message with
    | .error e =>
      (.error (.signerFailure e), [.challengeRequested, .signatureRequested])
    | .ok signature =>
      match o.challengeSign
          { message := challenge.message
            secret_random := challenge.secret_random
            signature := signature } with
      | .failure response =>
        (.error (authorizationErrorFromResponse response),
         [.challengeRequested, .signatureRequested, .challengeSubmitted])
      | .success result =>
        (.ok { challengeId := result.challenge_cid, secret := challenge.secret_random },
         [.challengeRequested, .signatureRequested, .challengeSubmitted])

/-- The deletion result, from the DeleteResponse type in types.ts. -/
structure DeleteResponse where
  success : Bool
deriving DecidableEq

/-- The DELETE request URL built by StorageClient.delete: the gateway URL
of the storage key with the challenge_cid and secret_random query
parameters from the authorization. -/
def deleteRequestUrl (env : EnvironmentConfig) (storageKey : Str)
    (authorization : Authorization) : Str :=
  env.backend ++ chars "/" ++ storageKey ++ chars "?challenge_cid=" ++
    authorization.challengeId ++ chars "&secret_random=" ++ authorization.secret

/-- The PUT request URL built by StorageClient.update, with the same
challenge_cid and secret_random query parameters. -/
def updateRequestUrl (env : EnvironmentConfig) (storageKey : Str)
    (authorization : Authorization) : Str :=
  env.backend ++ chars "/" ++ storageKey ++ chars "?challenge_cid=" ++
    authorization.challengeId ++ chars "&secret_random=" ++ authorization.secret

/-- StorageClient.delete: normalize the key, authorize the delete action,
issue the DELETE request carrying the authorization query parameters, and
return success equal to the response ok flag. A non-success DELETE
response is returned as success false, not raised as an error. -/
def deleteModel (env : EnvironmentConfig) (o : AuthOracles) (storageKeyOrUri : Str)
    (send : Str → Response) : Except ClientError DeleteResponse × List AuthStep :=
  let storageKey := extractStorageKey storageKeyOrUri
  match authorize o .delete storageKey with
  | (.error e, steps) => (.error e, steps)
  | (.ok authorization, steps) =>
    (.ok { success := (send (deleteRequestUrl env storageKey authorization)).ok }, steps)

/-- StorageClient.editFile: normalize the key, authorize the edit action,
build the builder from the single resource for the key, bind the new
file and the resolved ACL, issue the PUT update, and raise a
StorageClientError from a non-success response. The send argument models
the PUT fetch: it receives the request URL and the entries. -/
def editFileModel (env : EnvironmentConfig) (o : AuthOracles) (storageKeyOrUri : Str)
    (newFile : File) (acl : Option AclTemplate) (send : Str → List MultipartEntry → Response) :
    Except ClientError Resource :=
  let storageKey := extractStorageKey storageKeyOrUri
  match (authorize o .edit storageKey).1 with
  | .error e => .error e
  | .ok authorization =>
    let aclResolved := resolveAcl acl env
    let resource := resourceFrom storageKey env
    match (MultipartEntriesBuilder.ofAllocations [resource]).withFile newFile with
    | .error e => .error e
    | .ok b =>
      let entries := (b.withAclTemplate aclResolved).entries
      let response := send (updateRequestUrl env storageKey authorization) entries
      if response.ok = false then .error (storageClientErrorFromResponse response)
      else .ok resource

/-- StorageClient.uploadMutableFile after allocation: the builder binds
the file to the single allocated resource and appends the resolved ACL
entry; the create POST is issued with those entries; a non-success
response raises a StorageClientError from the response; on success the
allocated resource is returned. The send argument models the create
POST fetch receiving the entries. -/
def uploadMutableFileModel (resource : Resource) (file : File) (acl : AclTemplate)
    (send : List MultipartEntry → Response) : Except ClientError Resource :=
  match (MultipartEntriesBuilder.ofAllocations [resource]).withFile file with
  | .error e => .error e
  | .ok b =>
    let entries := (b.withAclTemplate acl).entries
    let response := send entries
    if response.ok = false then .error (storageClientErrorFromResponse response)
    else .ok resource

/-- StorageClient.uploadImmutableFile response handling: a non-success
response to the immutable upload POST raises a StorageClientError from
the response; on success the resource parsed from the body is returned.
The body parsing is abstracted as the parsed argument. -/
def uploadImmutableFileModel (response : Response) (parsed : Resource) :
    Except ClientError Resource :=
  if response.ok = false then .error (storageClientErrorFromResponse response)
  else .ok parsed

/-- StorageClient.status response handling: a non-success response or an
undecodable body raises a StorageClientError from the response. The
parsed argument models the statusFrom decoding of the body. -/
def statusModel (response : Response) (parsed : Option Status) :
    Except ClientError Status :=
  if response.ok = false then .error (storageClientErrorFromResponse response)
  else
    match parsed with
    | some s => .ok s
    | none => .error (storageClientErrorFromResponse response)

/-- StorageClient.allocateStorage: the amount invariant is checked before
any network call; a non-success response raises a StorageClientError
from the response; the parsed argument models parseResourceFrom on the
success body. -/
def allocateStorageModel (amount : Int) (response : Response) (parsed : List Resource) :
    Except ClientError (List Resource) :=
  if amount > 0 then
    if response.ok = false then .error (storageClientErrorFromResponse response)
    else .ok parsed
  else .error (.invariantError (chars "Amount must be greater than 0"))

/-- The index option of uploadFolder: a content factory, a pre-built
file, or a boolean. -/
inductive IndexValue where
  | factory (create : List Resource → Json)
  | file (f : File)
  | bool (b : Bool)

/-- The uploadFolder options, from UploadFolderOptions in types.ts. -/
structure UploadFolderOptions where
  acl : Option AclTemplate
  index : Option IndexValue

/-- JavaScript truthiness of the index option. -/
def indexTruthy (index : Option IndexValue) : Bool :=
  match index with
  | some (.bool b) => b
  | some _ => true
  | none => false

/-- The needsIndex test of uploadFolder. -/
def needsIndex (options : UploadFolderOptions) : Bool := indexTruthy options.index

/-- The number of storage slots requested by uploadFolder: one per file,
plus the folder slot, plus one more for the index file when the index
option is truthy. -/
def allocationAmount (files : List File) (options : UploadFolderOptions) : Nat :=
  files.length + (if needsIndex options then 2 else 1)

/-- The withIndexFile argument passed by uploadFolder for a truthy index
option. -/
def indexArgOf (index : IndexValue) : Option IndexArg :=
  match index with
  | .factory create => some (.createContent create)
  | .file f => some (.file f)
  | .bool true => some .literalTrue
  | .bool false => none

/-- The folder upload result, from UploadFolderResponse in types.ts. -/
structure UploadFolderResponse where
  files : List Resource
  folder : Resource
deriving DecidableEq

/-- StorageClient.uploadFolder after allocation: the first allocated
resource is the folder, the rest back the file parts; the files are
bound in order, then the index file when the index option is truthy,
then the resolved ACL entry; a non-success create response raises a
StorageClientError; on success the folder resource and the remaining
allocated resources are returned, and the multipart entries sent with
the create request are exposed alongside. -/
def uploadFolderModel (env : EnvironmentConfig) (allocated : List Resource)
    (files : List File) (options : UploadFolderOptions) (createResponse : Response) :
    Except ClientError (UploadFolderResponse × List MultipartEntry) :=
  match allocated with
  | [] => .error (.invariantError (chars "no storage key allocated for the folder"))
  | folderResource :: fileResources =>
    match (MultipartEntriesBuilder.ofAllocations fileResources).withFiles files with
    | .error e => .error e
    | .ok b =>
      match
        (match options.index with
        | some v =>
          match indexArgOf v with
          | some arg => b.withIndexFile arg
          | none => .ok b
        | none => .ok b) with
      | .error e => .error e
      | .ok b2 =>
        let b3 := b2.withAclTemplate (resolveAcl options.acl env)
        if createResponse.ok = false then
          .error (storageClientErrorFromResponse createResponse)
        else
          .ok ({ folder := folderResource, files := fileResources }, b3.entries)

/-- A sample resource used to instantiate the propagation theorems. -/
def sampleResource : Resource := resourceFrom (chars "key1") production

/-- A second sample resource, used for the builder instantiations. -/
def sampleResourceB : Resource := resourceFrom (chars "key2") production

/-- A third sample resource, backing the index slot in the folder
instantiation. -/
def sampleResourceC : Resource := resourceFrom (chars "key3") production

/-- A small sample file. -/
def sampleFile : File :=
  { name := chars "a.txt", type := chars "text/plain", content := [72, 105] }

/-- An auth oracle whose three boundary calls all succeed with fixed
values. -/
def successAuthOracles : AuthOracles :=
  { challengeNew := fun _ _ =>
      .success { message := chars "msg-1", secret_random := chars "nonce-1" }
    signMessage := fun _ => .ok (chars "sig-1")
    challengeSign := fun _ => .success { challenge_cid := chars "cid-1" } }

/-- A non-success transport response with a decodable message field. -/
def deniedResponse : Response :=
  { ok := false, decodedMessage := some (chars "denied"), text := chars "denied-raw" }

/-- A success transport response. -/
def okResponse : Response :=
  { ok := true, decodedMessage := none, text := [] }

/-- A polling context whose first status query reports unauthorized. -/
def unauthorizedPollingCtx : PropagationContext :=
  { env := production
    polls := fun _ => .ok { storageKey := chars "key1", status := .unauthorized, progress := 0 }
    durs := fun _ => 0 }

/-- A polling context that reports pending forever, with a tiny timeout
budget. -/
def pendingPollingCtx : PropagationContext :=
  { env := { production with propagationTimeout := 2, propagationPollingInterval := 1 }
    polls := fun _ => .ok { storageKey := chars "key1", status := .pending, progress := 0 }
    durs := fun _ => 0 }

end Grove

namespace Grove

lemma isPrefixOf_append_self (p k : Str) : p.isPrefixOf (p ++ k) = true := by
  induction p with
  | nil => simp [List.isPrefixOf]
  | cons c cs ih => simp [List.isPrefixOf, ih]

/-- C9: resource addressing round-trip. A resource built from a storage key
has uri lens://key and gatewayUrl backend/key, both derived from the same
key; extractStorageKey strips exactly the lens:// marker and is the
identity on strings without it; hence resolve maps both the resource uri
and the bare key to the resource gatewayUrl. -/
theorem resource_addressing_roundtrip (k s : Str) (env : EnvironmentConfig)
    (hs : LENS_URI_SUFFIX.isPrefixOf s = false) :
    (resourceFrom k env).uri = LENS_URI_SUFFIX ++ k ∧
    (resourceFrom k env).gatewayUrl = env.backend ++ chars "/" ++ k ∧
    (resourceFrom k env).storageKey = k ∧
    extractStorageKey (LENS_URI_SUFFIX ++ k) = k ∧
    extractStorageKey s = s ∧
    resolve env (resourceFrom k env).uri = (resourceFrom k env).gatewayUrl ∧
    (LENS_URI_SUFFIX.isPrefixOf k = false →
      resolve env k = (resourceFrom k env).gatewayUrl) := by
  have hext : extractStorageKey (LENS_URI_SUFFIX ++ k) = k := by
    unfold extractStorageKey
    rw [isPrefixOf_append_self]
    simp [LENS_URI_SUFFIX]
  have hid : extractStorageKey s = s := by
    unfold extractStorageKey
    rw [hs]
    simp
  refine ⟨rfl, rfl, rfl, hext, hid, ?_, ?_⟩
  · show resolve env (LENS_URI_SUFFIX ++ k) = (resourceFrom k env).gatewayUrl
    unfold resolve
    rw [hext]
    rfl
  · intro hk
    unfold resolve extractStorageKey
    rw [hk]
    simp [resourceFrom]

/-- C9 witness: the round-trip facts at a concrete key, string and
environment. -/
theorem resource_addressing_roundtrip_witness :
    LENS_URI_SUFFIX.isPrefixOf (chars "abc") = false ∧
    extractStorageKey (LENS_URI_SUFFIX ++ chars "key1") = chars "key1" ∧
    resolve production (resourceFrom (chars "key1") production).uri =
      (resourceFrom (chars "key1") production).gatewayUrl := by
  refine ⟨by decide, ?_, ?_⟩
  · exact
      (resource_addressing_roundtrip (chars "key1") (chars "abc") production
        (by decide)).2.2.2.1
  · exact
      (resource_addressing_roundtrip (chars "key1") (chars "abc") production
        (by decide)).2.2.2.2.2.1

lemma partBytes_length (boundary : Str) (e : MultipartEntry) :
    (partBytes boundary e).length =
      (utf8Encode (boundaryLine boundary)).length
        + (utf8Encode (contentDispositionLine e.name e.file.name)).length
        + (utf8Encode (contentTypeLine e.file.type)).length
        + e.file.size
        + (utf8Encode CRLF).length := by
  simp [partBytes, File.size]
  omega

lemma computeMultipartSize_foldl (boundary : Str) :
    ∀ (entries : List MultipartEntry) (a : Nat),
      entries.foldl
        (fun size e =>
          size + (utf8Encode (boundaryLine boundary)).length
            + (utf8Encode (contentDispositionLine e.name e.file.name)).length
            + (utf8Encode (contentTypeLine e.file.type)).length
            + e.file.size
            + (utf8Encode CRLF).length)
        a
      = a + (entries.map (fun e => (partBytes boundary e).length)).sum := by
  intro entries
  induction entries with
  | nil => intro a; simp
  | cons e rest ih =>
    intro a
    rw [List.foldl_cons, ih]
    rw [List.map_cons, List.sum_cons, partBytes_length]
    omega

lemma streamedBytes_eq (entries : List MultipartEntry) (boundary : Str) :
    streamedBytes entries boundary =
      entries.flatMap (partBytes boundary) ++ utf8Encode (closingLine boundary) := by
  induction entries with
  | nil => simp [streamedBytes, multipartStream, chunkBytes]
  | cons e rest ih =>
    simp only [streamedBytes, multipartStream, List.flatMap_cons, chunkBytes] at ih ⊢
    rw [ih]
    simp [partBytes, List.append_assoc]

/-- C2: for every ordered entry list and boundary, the declared
Content-Length computed by computeMultipartSize equals the byte length of
the stream emitted by multipartStream; the file contents appear in the
body in the exact order supplied; and the emitted bytes are exactly the
concatenation, in order, of each part framed by the boundary line, the
two header lines and a trailing CRLF, followed by the single closing
boundary line. -/
theorem multipart_declared_length_matches_stream
    (entries : List MultipartEntry) (boundary : Str) (method : Str) (st : ProbeState) :
    computeMultipartSize entries boundary = (streamedBytes entries boundary).length ∧
    (multipartStream entries boundary).filterMap
        (fun c => match c with | .bytes b => some b | .text _ => none) =
      entries.map (fun e => e.file.content) ∧
    streamedBytes entries boundary =
      entries.flatMap (partBytes boundary) ++ utf8Encode (closingLine boundary) ∧
    (createMultipartRequestInit method true entries boundary st).1.contentLength =
      some ((streamedBytes entries boundary).length) := by
  have hsize : computeMultipartSize entries boundary =
      (streamedBytes entries boundary).length := by
    rw [streamedBytes_eq entries boundary]
    unfold computeMultipartSize
    rw [computeMultipartSize_foldl]
    simp only [List.length_append, List.length_flatMap, Nat.zero_add]
    congr 1
  refine ⟨hsize, ?_, streamedBytes_eq entries boundary, ?_⟩
  · clear hsize
    induction entries with
    | nil => simp [multipartStream]
    | cons e rest ih => simp [multipartStream, List.filterMap_cons, ih]
  · show some (computeMultipartSize entries boundary) =
      some ((streamedBytes entries boundary).length)
    rw [hsize]

/-- C3: propagation monitor transition rule. Within the timeout budget, a
done status succeeds and stops after that single query; any of the four
error statuses fails immediately with that status and performs no delay;
a transport-level query failure is terminal and not retried; any other
status performs exactly one polling-interval delay and re-queries; and a
first status of unauthorized makes waitForPropagation fail after one
query and zero delays. -/
theorem propagation_monitor_transition_rule (ctx : PropagationContext)
    (resource : Resource) (fuel i elapsed : Nat)
    (h : elapsed < ctx.env.propagationTimeout) :
    (∀ st, ctx.polls i = .ok st → st.status = .done →
      waitLoop ctx resource (fuel + 1) i elapsed = ⟨.success, 1, 0⟩) ∧
    (∀ st, ctx.polls i = .ok st → isErrorStatus st.status = true →
      waitLoop ctx resource (fuel + 1) i elapsed = ⟨.statusError st.status, 1, 0⟩) ∧
    (∀ e, ctx.polls i = .error e →
      waitLoop ctx resource (fuel + 1) i elapsed = ⟨.transportError e, 1, 0⟩) ∧
    (∀ st, ctx.polls i = .ok st → isNonTerminal st.status = true →
      waitLoop ctx resource (fuel + 1) i elapsed =
        ⟨(waitLoop ctx resource fuel (i + 1)
            (elapsed + ctx.durs i + ctx.env.propagationPollingInterval)).outcome,
         (waitLoop ctx resource fuel (i + 1)
            (elapsed + ctx.durs i + ctx.env.propagationPollingInterval)).pollsMade + 1,
         (waitLoop ctx resource fuel (i + 1)
            (elapsed + ctx.durs i + ctx.env.propagationPollingInterval)).delaysMade + 1⟩) ∧
    (∀ st, ctx.polls 0 = .ok st → st.status = .unauthorized →
      waitForPropagation ctx resource = ⟨.statusError .unauthorized, 1, 0⟩) := by
  have stepOk : ∀ (f j el : Nat) (st : Status), el < ctx.env.propagationTimeout →
      ctx.polls j = .ok st →
      waitLoop ctx resource (f + 1) j el =
        (if st.status = .done then ⟨.success, 1, 0⟩
        else if isErrorStatus st.status then ⟨.statusError st.status, 1, 0⟩
        else
          let r := waitLoop ctx resource f (j + 1)
            (el + ctx.durs j + ctx.env.propagationPollingInterval)
          ⟨r.outcome, r.pollsMade + 1, r.delaysMade + 1⟩) := by
    intro f j el st hel hp
    rw [waitLoop, if_pos hel, hp]
  refine ⟨?_, ?_, ?_, ?_, ?_⟩
  · intro st hp hd
    rw [stepOk fuel i elapsed st h hp, if_pos hd]
  · intro st hp he
    have hd : ¬ st.status = .done := by
      intro hc; rw [hc] at he; simp [isErrorStatus] at he
    rw [stepOk fuel i elapsed st h hp, if_neg hd, if_pos he]
  · intro e hp
    rw [waitLoop, if_pos h, hp]
  · intro st hp hn
    have hd : ¬ st.status = .done := by
      intro hc; rw [hc] at hn; simp [isNonTerminal] at hn
    have he : ¬ isErrorStatus st.status = true := by
      intro hc
      cases hst : st.status <;> rw [hst] at hn hc <;>
        simp [isNonTerminal, isErrorStatus] at hn hc
    rw [stepOk fuel i elapsed st h hp, if_neg hd, if_neg he]
  · intro st hp hu
    have hd : ¬ st.status = .done := by rw [hu]; intro hc; cases hc
    have he : isErrorStatus st.status = true := by rw [hu]; rfl
    unfold waitForPropagation
    rw [stepOk ctx.env.propagationTimeout 0 0 st (by omega) hp, if_neg hd, if_pos he, hu]

/-- C3 witness: a first unauthorized status fails immediately, after one
query and zero delays, in the concrete unauthorized polling context. -/
theorem propagation_monitor_transition_rule_witness :
    waitForPropagation unauthorizedPollingCtx sampleResource =
      ⟨.statusError .unauthorized, 1, 0⟩ :=
  (propagation_monitor_transition_rule unauthorizedPollingCtx sampleResource 0 0 0
      (by decide)).2.2.2.2
    { storageKey := chars "key1", status := .unauthorized, progress := 0 } rfl rfl

lemma waitLoop_timeout_reached (ctx : PropagationContext) (resource : Resource)
    (fuel i elapsed : Nat) (h : ctx.env.propagationTimeout ≤ elapsed) :
    waitLoop ctx resource (fuel + 1) i elapsed = ⟨.timeoutError resource.uri, 0, 0⟩ := by
  rw [waitLoop]
  simp [Nat.not_lt.mpr h]

lemma waitLoop_nonterminal_timeout (ctx : PropagationContext) (resource : Resource)
    (hint : 1 ≤ ctx.env.propagationPollingInterval)
    (hnon : ∀ j, ∃ st, ctx.polls j = .ok st ∧ isNonTerminal st.status = true) :
    ∀ (fuel i elapsed : Nat), ctx.env.propagationTimeout ≤ elapsed + fuel →
      (waitLoop ctx resource (fuel + 1) i elapsed).outcome = .timeoutError resource.uri := by
  intro fuel
  induction fuel with
  | zero =>
    intro i elapsed hle
    rw [waitLoop_timeout_reached ctx resource 0 i elapsed (by omega)]
  | succ f ih =>
    intro i elapsed hle
    by_cases hel : elapsed < ctx.env.propagationTimeout
    · obtain ⟨st, hp, hn⟩ := hnon i
      have hd : ¬ st.status = .done := by
        intro hc; rw [hc] at hn; simp [isNonTerminal] at hn
      have he : ¬ isErrorStatus st.status = true := by
        intro hc
        cases hst : st.status <;> rw [hst] at hn hc <;>
          simp [isNonTerminal, isErrorStatus] at hn hc
      rw [waitLoop, if_pos hel, hp]
      dsimp only
      rw [if_neg hd, if_neg he]
      exact ih (i + 1) (elapsed + ctx.durs i + ctx.env.propagationPollingInterval) (by omega)
    · rw [waitLoop_timeout_reached ctx resource (f + 1) i elapsed (by omega)]

/-- C4: propagation monitor termination and timeout. Once the elapsed
time reaches the timeout budget the loop stops at once with a timeout
error naming the resource URI, issuing no further status query and no
further delay; and for any status sequence that never reaches a terminal
state, waitForPropagation (run with fuel covering the whole budget, which
is therefore never exhausted) ends in the timeout error naming the
resource URI whenever the polling interval is positive. -/
theorem propagation_monitor_timeout (ctx : PropagationContext) (resource : Resource)
    (hint : 1 ≤ ctx.env.propagationPollingInterval)
    (hnon : ∀ j, ∃ st, ctx.polls j = .ok st ∧ isNonTerminal st.status = true) :
    (∀ fuel i elapsed, ctx.env.propagationTimeout ≤ elapsed →
      waitLoop ctx resource (fuel + 1) i elapsed = ⟨.timeoutError resource.uri, 0, 0⟩) ∧
    (waitForPropagation ctx resource).outcome = .timeoutError resource.uri := by
  refine ⟨fun fuel i elapsed h => waitLoop_timeout_reached ctx resource fuel i elapsed h, ?_⟩
  exact waitLoop_nonterminal_timeout ctx resource hint hnon
    ctx.env.propagationTimeout 0 0 (by omega)

/-- C4 witness: the concrete always-pending context times out with the
error naming the resource URI. -/
theorem propagation_monitor_timeout_witness :
    (waitForPropagation pendingPollingCtx sampleResource).outcome =
      .timeoutError sampleResource.uri :=
  (propagation_monitor_timeout pendingPollingCtx sampleResource (by decide)
      (fun _ => ⟨{ storageKey := chars "key1", status := .pending, progress := 0 }, rfl, rfl⟩)).2

/-- C1: ACL resolution and wire serialization. Resolving a missing ACL
yields the immutable policy on the environment default chain; each of the
four variants serializes to the lens-acl.json wire object with the
template discriminant and exactly the variant-specific fields renamed to
snake_case, values unmodified, with network_type fixed to evm on the
generic variant. The serializer is total over the closed four-variant
union, and the unknown-discriminant branch of the source is unreachable
under exhaustive matching. -/
theorem acl_resolution_and_wire_serialization (env : EnvironmentConfig)
    (a : AclTemplate) (chainId : Int) (contractAddress functionSig account address : Str)
    (params : List Json) :
    resolveAcl none env = AclTemplate.immutable env.defaultChainId ∧
    resolveAcl (some a) env = a ∧
    createAclTemplateContent (.immutable chainId) =
      [(chars "template", .str (chars "immutable")),
       (chars "chain_id", .num chainId)] ∧
    createAclTemplateContent (.lensAccount account chainId) =
      [(chars "template", .str (chars "lens_account")),
       (chars "lens_account", .str account),
       (chars "chain_id", .num chainId)] ∧
    createAclTemplateContent (.walletAddress address chainId) =
      [(chars "template", .str (chars "wallet_address")),
       (chars "wallet_address", .str address),
       (chars "chain_id", .num chainId)] ∧
    createAclTemplateContent (.genericAcl chainId contractAddress functionSig params) =
      [(chars "template", .str (chars "generic_acl")),
       (chars "contract_address", .str contractAddress),
       (chars "chain_id", .num chainId),
       (chars "network_type", .str (chars "evm")),
       (chars "function_sig", .str functionSig),
       (chars "params", .arr params)] :=
  ⟨rfl, rfl, rfl, rfl, rfl, rfl⟩

lemma withFiles_ok (files : List File) :
    ∀ (b : MultipartEntriesBuilder), b.idx + files.length ≤ b.allocations.length →
      b.withFiles files = .ok
        { allocations := b.allocations
          idx := b.idx + files.length
          entries := b.entries ++ List.zipWith
            (fun r f => { name := r.storageKey, file := f })
            ((b.allocations.drop b.idx).take files.length) files } := by
  induction files with
  | nil =>
    intro b hle
    simp [MultipartEntriesBuilder.withFiles]
  | cons f fs ih =>
    intro b hle
    have hidx : b.idx < b.allocations.length := by
      simp only [List.length_cons] at hle; omega
    have hget : b.allocations.get? b.idx = some (b.allocations.get ⟨b.idx, hidx⟩) :=
      List.get?_eq_get hidx
    show (match b.withFile f with
      | .ok b2 => b2.withFiles fs
      | .error e => .error e) = _
    rw [MultipartEntriesBuilder.withFile, hget]
    dsimp only
    rw [ih]
    · have hdrop : b.allocations.drop b.idx =
          b.allocations.get ⟨b.idx, hidx⟩ :: b.allocations.drop (b.idx + 1) := by
        rw [List.drop_eq_getElem_cons hidx]
        rfl
      dsimp only
      rw [hdrop]
      simp only [List.length_cons, List.take_succ_cons, List.zipWith_cons_cons,
        Except.ok.injEq, MultipartEntriesBuilder.mk.injEq]
      refine ⟨trivial, by omega, ?_⟩
      simp [List.append_assoc]
    · simp only [List.length_cons] at hle
      simp only
      omega

lemma withFiles_exhausted (files : List File) :
    ∀ (b : MultipartEntriesBuilder), b.idx ≤ b.allocations.length →
      b.allocations.length < b.idx + files.length →
      b.withFiles files =
        .error (.invariantError (chars "Unexpected file, no storage key available")) := by
  induction files with
  | nil =>
    intro b h1 h2
    simp only [List.length_nil] at h2
    omega
  | cons f fs ih =>
    intro b h1 h2
    show (match b.withFile f with
      | .ok b2 => b2.withFiles fs
      | .error e => .error e) = _
    by_cases hidx : b.idx < b.allocations.length
    · rw [MultipartEntriesBuilder.withFile, List.get?_eq_get hidx]
      dsimp only
      apply ih
      · simp only
        omega
      · simp only [List.length_cons] at h2
        simp only
        omega
    · have hnone : b.allocations.get? b.idx = none := by
        rw [List.get?_eq_none]
        omega
      rw [MultipartEntriesBuilder.withFile, hnone]

lemma zipWith_entry_names :
    ∀ (rs : List Resource) (fs : List File), rs.length ≤ fs.length →
      (List.zipWith (fun r f => MultipartEntry.mk r.storageKey f) rs fs).map
          (fun e => e.name) =
        rs.map (fun r => r.storageKey) := by
  intro rs
  induction rs with
  | nil => intro fs _; simp
  | cons r rest ih =>
    intro fs hle
    cases fs with
    | nil => simp at hle
    | cons f fsrest =>
      simp only [List.zipWith_cons_cons, List.map_cons, List.cons.injEq]
      exact ⟨trivial, ih fsrest (by simp at hle; omega)⟩

/-- C7: part-to-key binding. Starting from a builder over the
pre-allocated resources, withFiles binds the i-th file, in call order, to
the storage key of the i-th allocated resource; when the file parts are
at most the allocations the run succeeds (the failure branch is
unreachable) with exactly that binding, and when the file parts exceed
the allocations the run fails with the no-key-available invariant
failure instead of producing a part. -/
theorem builder_part_to_key_binding (allocations : List Resource) (files : List File) :
    (files.length ≤ allocations.length →
      (MultipartEntriesBuilder.ofAllocations allocations).withFiles files =
        .ok { allocations := allocations
              idx := files.length
              entries := List.zipWith (fun r f => { name := r.storageKey, file := f })
                (allocations.take files.length) files }) ∧
    (files.length ≤ allocations.length →
      ∀ b, (MultipartEntriesBuilder.ofAllocations allocations).withFiles files = .ok b →
        b.entries.map (fun e => e.name) =
          (allocations.take files.length).map (fun r => r.storageKey)) ∧
    (allocations.length < files.length →
      (MultipartEntriesBuilder.ofAllocations allocations).withFiles files =
        .error (.invariantError (chars "Unexpected file, no storage key available"))) := by
  have hok : files.length ≤ allocations.length →
      (MultipartEntriesBuilder.ofAllocations allocations).withFiles files =
        .ok { allocations := allocations
              idx := files.length
              entries := List.zipWith (fun r f => { name := r.storageKey, file := f })
                (allocations.take files.length) files } := by
    intro hle
    have := withFiles_ok files (MultipartEntriesBuilder.ofAllocations allocations)
      (by simpa [MultipartEntriesBuilder.ofAllocations] using hle)
    simpa [MultipartEntriesBuilder.ofAllocations] using this
  refine ⟨hok, ?_, ?_⟩
  · intro hle b hb
    rw [hok hle] at hb
    cases hb
    simp only
    apply zipWith_entry_names
    rw [List.length_take]
    omega
  · intro hgt
    exact withFiles_exhausted files (MultipartEntriesBuilder.ofAllocations allocations)
      (by simp [MultipartEntriesBuilder.ofAllocations]) (by simpa [MultipartEntriesBuilder.ofAllocations] using hgt)

/-- C7 witness: binding one file against two allocations succeeds with
the first storage key; binding one file against no allocations fails
with the no-key invariant failure. -/
theorem builder_part_to_key_binding_witness :
    (MultipartEntriesBuilder.ofAllocations [sampleResource, sampleResourceB]).withFiles
        [sampleFile] =
      .ok { allocations := [sampleResource, sampleResourceB]
            idx := 1
            entries := List.zipWith (fun r f => { name := r.storageKey, file := f })
              ([sampleResource, sampleResourceB].take 1) [sampleFile] } ∧
    (MultipartEntriesBuilder.ofAllocations []).withFiles [sampleFile] =
      .error (.invariantError (chars "Unexpected file, no storage key available")) :=
  ⟨(builder_part_to_key_binding [sampleResource, sampleResourceB] [sampleFile]).1
      (by decide),
   (builder_part_to_key_binding [] [sampleFile]).2.2 (by decide)⟩

lemma indexTruthy_of_arg (v : IndexValue) (arg : IndexArg)
    (harg : indexArgOf v = some arg) : indexTruthy (some v) = true := by
  cases v with
  | factory create => rfl
  | file f => rfl
  | bool b =>
    cases b with
    | false => simp [indexArgOf] at harg
    | true => rfl

/-- C10: uploadFolder allocation and binding. With a truthy index option
the requested allocation is the file count plus two; the first allocated
resource is the folder; the files are bound in order to the following
keys; the index file is bound to the final remaining key; and the
returned files array is the file-count-plus-one resources backing the
parts, including the resource of the index file. Without an index option
the requested allocation is the file count plus one and the returned
files array is exactly the file resources. -/
theorem upload_folder_allocation_binding (env : EnvironmentConfig)
    (folder lastR : Resource) (front : List Resource) (files : List File)
    (acl : Option AclTemplate) (v : IndexValue) (arg : IndexArg) (resp : Response)
    (hfront : front.length = files.length)
    (harg : indexArgOf v = some arg)
    (hname : (indexFileOf arg (front ++ [lastR])).name = chars "index.json")
    (hresp : resp.ok = true) :
    allocationAmount files { acl := acl, index := some v } = files.length + 2 ∧
    (folder :: (front ++ [lastR])).length =
      allocationAmount files { acl := acl, index := some v } ∧
    uploadFolderModel env (folder :: (front ++ [lastR])) files
        { acl := acl, index := some v } resp =
      .ok ({ folder := folder, files := front ++ [lastR] },
        List.zipWith (fun r f => { name := r.storageKey, file := f }) front files
          ++ [{ name := lastR.storageKey, file := indexFileOf arg (front ++ [lastR]) }]
          ++ [createAclEntry (resolveAcl acl env)]) ∧
    (front ++ [lastR]).length = files.length + 1 ∧
    allocationAmount files { acl := acl, index := none } = files.length + 1 ∧
    uploadFolderModel env (folder :: front) files { acl := acl, index := none } resp =
      .ok ({ folder := folder, files := front },
        List.zipWith (fun r f => { name := r.storageKey, file := f }) front files
          ++ [createAclEntry (resolveAcl acl env)]) := by
  have htruthy : indexTruthy (some v) = true := indexTruthy_of_arg v arg harg
  have htake : (front ++ [lastR]).take files.length = front := by
    rw [← hfront]
    exact List.take_left front [lastR]
  have hget : (front ++ [lastR]).get? files.length = some lastR := by
    rw [← hfront]
    exact List.get?_concat_length front lastR
  refine ⟨?_, ?_, ?_, ?_, ?_, ?_⟩
  · simp [allocationAmount, needsIndex, htruthy]
  · simp [allocationAmount, needsIndex, htruthy, hfront]
  · have hwf := withFiles_ok files (MultipartEntriesBuilder.ofAllocations (front ++ [lastR]))
      (by simp [MultipartEntriesBuilder.ofAllocations, hfront])
    simp only [MultipartEntriesBuilder.ofAllocations, List.drop_zero, List.nil_append,
      Nat.zero_add, htake] at hwf
    unfold uploadFolderModel
    dsimp only
    simp only [MultipartEntriesBuilder.ofAllocations]
    rw [hwf]
    dsimp only
    rw [harg]
    dsimp only
    rw [MultipartEntriesBuilder.withIndexFile]
    dsimp only
    rw [hname]
    rw [if_pos rfl]
    rw [MultipartEntriesBuilder.withFile]
    dsimp only
    rw [hget]
    dsimp only
    simp [MultipartEntriesBuilder.withAclTemplate, hresp, List.append_assoc]
  · simp [hfront]
  · simp [allocationAmount, needsIndex, indexTruthy]
  · have hwf := withFiles_ok files (MultipartEntriesBuilder.ofAllocations front)
      (by simp [MultipartEntriesBuilder.ofAllocations, hfront])
    have htakef : front.take files.length = front := by
      rw [← hfront]
      exact List.take_length front
    simp only [MultipartEntriesBuilder.ofAllocations, List.drop_zero, List.nil_append,
      Nat.zero_add, htakef] at hwf
    unfold uploadFolderModel
    dsimp only
    simp only [MultipartEntriesBuilder.ofAllocations]
    rw [hwf]
    dsimp only
    simp [MultipartEntriesBuilder.withAclTemplate, hresp, List.append_assoc]

/-- C10 witness: a folder upload of one file with index true over three
allocated resources binds the file to the second key, the index file to
the third key, and returns both as the files array. -/
theorem upload_folder_allocation_binding_witness :
    uploadFolderModel production (sampleResource :: ([sampleResourceB] ++ [sampleResourceC]))
        [sampleFile] { acl := none, index := some (.bool true) } okResponse =
      .ok ({ folder := sampleResource, files := [sampleResourceB] ++ [sampleResourceC] },
        List.zipWith (fun r f => { name := r.storageKey, file := f }) [sampleResourceB]
            [sampleFile]
          ++ [{ name := sampleResourceC.storageKey,
                file := indexFileOf .literalTrue ([sampleResourceB] ++ [sampleResourceC]) }]
          ++ [createAclEntry (resolveAcl none production)]) :=
  (upload_folder_allocation_binding production sampleResource sampleResourceC
      [sampleResourceB] [sampleFile] none (.bool true) .literalTrue okResponse
      rfl rfl rfl rfl).2.2.1

/-- C5: the authorization protocol. A successful run performs exactly the
three boundary steps in order and returns the challenge_cid of the
submission response as challengeId together with the secret_random of
the challenge as secret; a non-success challenge request aborts after the
first step with an AuthorizationError and no retry; a signer failure
propagates unmodified after the second step; a non-success submission
aborts after the third step with an AuthorizationError; and the
subsequent mutating request attaches the resulting challengeId and
secret as the challenge_cid and secret_random query parameters: the
DELETE request of delete is issued at deleteRequestUrl, and the PUT
request of editFile is issued at updateRequestUrl, both carrying the
authorization. -/
theorem authorization_protocol_steps (o : AuthOracles) (action : AuthAction)
    (storageKey : Str) :
    (∀ challenge signature result,
      o.challengeNew action storageKey = .success challenge →
      o.signMessage challenge.message = .ok signature →
      o.challengeSign { message := challenge.message
                        secret_random := challenge.secret_random
                        signature := signature } = .success result →
      authorize o action storageKey =
        (.ok { challengeId := result.challenge_cid, secret := challenge.secret_random },
         [.challengeRequested, .signatureRequested, .challengeSubmitted])) ∧
    (∀ response, o.challengeNew action storageKey = .failure response →
      authorize o action storageKey =
        (.error (.authorizationError (errorMessageFromResponse response)),
         [.challengeRequested])) ∧
    (∀ challenge e,
      o.challengeNew action storageKey = .success challenge →
      o.signMessage challenge.message = .error e →
      authorize o action storageKey =
        (.error (.signerFailure e), [.challengeRequested, .signatureRequested])) ∧
    (∀ challenge signature response,
      o.challengeNew action storageKey = .success challenge →
      o.signMessage challenge.message = .ok signature →
      o.challengeSign { message := challenge.message
                        secret_random := challenge.secret_random
                        signature := signature } = .failure response →
      authorize o action storageKey =
        (.error (.authorizationError (errorMessageFromResponse response)),
         [.challengeRequested, .signatureRequested, .challengeSubmitted])) ∧
    (∀ (env : EnvironmentConfig) (send : Str → Response) (storageKeyOrUri : Str)
        (authorization : Authorization) (steps : List AuthStep),
      authorize o .delete (extractStorageKey storageKeyOrUri) = (.ok authorization, steps) →
      deleteModel env o storageKeyOrUri send =
        (.ok { success :=
            (send (deleteRequestUrl env (extractStorageKey storageKeyOrUri)
              authorization)).ok }, steps)) ∧
    (∀ (env : EnvironmentConfig) (send : Str → List MultipartEntry → Response)
        (storageKeyOrUri : Str) (newFile : File) (acl : Option AclTemplate)
        (authorization : Authorization),
      (authorize o .edit (extractStorageKey storageKeyOrUri)).1 = .ok authorization →
      editFileModel env o storageKeyOrUri newFile acl send =
        (if (send (updateRequestUrl env (extractStorageKey storageKeyOrUri) authorization)
              [{ name := (resourceFrom (extractStorageKey storageKeyOrUri) env).storageKey,
                 file := newFile },
               createAclEntry (resolveAcl acl env)]).ok = false
         then .error (storageClientErrorFromResponse
            (send (updateRequestUrl env (extractStorageKey storageKeyOrUri) authorization)
              [{ name := (resourceFrom (extractStorageKey storageKeyOrUri) env).storageKey,
                 file := newFile },
               createAclEntry (resolveAcl acl env)]))
         else .ok (resourceFrom (extractStorageKey storageKeyOrUri) env))) := by
  refine ⟨?_, ?_, ?_, ?_, ?_, ?_⟩
  · intro challenge signature result h1 h2 h3
    unfold authorize
    rw [h1]
    dsimp only
    rw [h2]
    dsimp only
    rw [h3]
  · intro response h1
    unfold authorize
    rw [h1]
    rfl
  · intro challenge e h1 h2
    unfold authorize
    rw [h1]
    dsimp only
    rw [h2]
  · intro challenge signature response h1 h2 h3
    unfold authorize
    rw [h1]
    dsimp only
    rw [h2]
    dsimp only
    rw [h3]
    rfl
  · intro env send storageKeyOrUri authorization steps h
    unfold deleteModel
    dsimp only
    rw [h]
  · intro env send storageKeyOrUri newFile acl authorization h
    unfold editFileModel
    dsimp only
    rw [h]
    rfl

/-- C5 witness: the success path at fixed oracle values yields the
challenge_cid of the submission response and the secret_random of the
challenge, after the three steps in order. -/
theorem authorization_protocol_steps_witness :
    authorize successAuthOracles .delete (chars "key1") =
      (.ok { challengeId := chars "cid-1", secret := chars "nonce-1" },
       [.challengeRequested, .signatureRequested, .challengeSubmitted]) :=
  (authorization_protocol_steps successAuthOracles .delete (chars "key1")).1
    { message := chars "msg-1", secret_random := chars "nonce-1" } (chars "sig-1")
    { challenge_cid := chars "cid-1" } rfl rfl rfl

/-- C8 counterexample: a non-success response to the DELETE request is
not surfaced as an error, contrary to the claim; StorageClient.delete
swallows it into the non-error result with success false. -/
theorem backend_error_surfacing_counterexample :
    deniedResponse.ok = false ∧
    deleteModel production successAuthOracles (chars "key1") (fun _ => deniedResponse) =
      (.ok { success := false },
       [.challengeRequested, .signatureRequested, .challengeSubmitted]) :=
  ⟨rfl, rfl⟩

/-- C8 amended: every non-success transport response from a boundary
call made by a public client operation — the storage allocation, the
mutable-upload create POST, the immutable-upload POST, the
folder-create POST, the edit-update PUT, the status query, and the
challenge request and challenge submission of the authorization
service — is surfaced to the caller as an error built from the decoded
message field of the response, falling back to the raw response text,
never silently swallowed and never retried; the sole exception is the
final DELETE request of delete, whose non-success response is returned
as success false rather than raised as an error. -/
theorem backend_error_surfacing (response : Response) (amount : Int)
    (parsed : List Resource) (parsedStatus : Option Status) (env : EnvironmentConfig)
    (o : AuthOracles) (storageKeyOrUri : Str) (newFile : File) (acl : Option AclTemplate)
    (folder : Resource) (front : List Resource) (files : List File)
    (authE : Authorization) (aclT : AclTemplate) (parsedImmutable : Resource)
    (hfail : response.ok = false)
    (hamount : 0 < amount)
    (hfront : front.length = files.length)
    (hauthE : (authorize o .edit (extractStorageKey storageKeyOrUri)).1 = .ok authE) :
    errorMessageFromResponse response = response.decodedMessage.getD response.text ∧
    allocateStorageModel amount response parsed =
      .error (.storageClientError (errorMessageFromResponse response)) ∧
    statusModel response parsedStatus =
      .error (.storageClientError (errorMessageFromResponse response)) ∧
    editFileModel env o storageKeyOrUri newFile acl (fun _ _ => response) =
      .error (.storageClientError (errorMessageFromResponse response)) ∧
    uploadFolderModel env (folder :: front) files { acl := acl, index := none } response =
      .error (.storageClientError (errorMessageFromResponse response)) ∧
    (∀ (authD : Authorization) (stepsD : List AuthStep),
      authorize o .delete (extractStorageKey storageKeyOrUri) = (.ok authD, stepsD) →
      deleteModel env o storageKeyOrUri (fun _ => response) =
        (.ok { success := false }, stepsD)) ∧
    uploadMutableFileModel folder newFile aclT (fun _ => response) =
      .error (.storageClientError (errorMessageFromResponse response)) ∧
    uploadImmutableFileModel response parsedImmutable =
      .error (.storageClientError (errorMessageFromResponse response)) ∧
    (∀ (o2 : AuthOracles) (action : AuthAction) (k : Str) (resp2 : Response),
      resp2.ok = false → o2.challengeNew action k = .failure resp2 →
      (authorize o2 action k).1 =
        .error (.authorizationError (errorMessageFromResponse resp2))) ∧
    (∀ (o2 : AuthOracles) (action : AuthAction) (k : Str) (challenge : Challenge)
        (signature : Str) (resp2 : Response),
      resp2.ok = false →
      o2.challengeNew action k = .success challenge →
      o2.signMessage challenge.message = .ok signature →
      o2.challengeSign { message := challenge.message
                         secret_random := challenge.secret_random
                         signature := signature } = .failure resp2 →
      (authorize o2 action k).1 =
        .error (.authorizationError (errorMessageFromResponse resp2))) := by
  refine ⟨?_, ?_, ?_, ?_, ?_, ?_, ?_, ?_, ?_, ?_⟩
  · cases hdm : response.decodedMessage <;> simp [errorMessageFromResponse, hdm]
  · unfold allocateStorageModel
    rw [if_pos hamount, if_pos hfail]
    rfl
  · unfold statusModel
    rw [if_pos hfail]
    rfl
  · unfold editFileModel
    dsimp only
    rw [hauthE]
    dsimp only
    simp [MultipartEntriesBuilder.withFile, MultipartEntriesBuilder.ofAllocations,
      MultipartEntriesBuilder.withAclTemplate, hfail, storageClientErrorFromResponse]
  · have hwf := withFiles_ok files (MultipartEntriesBuilder.ofAllocations front)
      (by simp [MultipartEntriesBuilder.ofAllocations, hfront])
    unfold uploadFolderModel
    dsimp only
    rw [hwf]
    dsimp only
    rw [if_pos hfail]
    rfl
  · intro authD stepsD h
    unfold deleteModel
    dsimp only
    rw [h]
    dsimp only
    rw [hfail]
  · unfold uploadMutableFileModel
    simp [MultipartEntriesBuilder.withFile, MultipartEntriesBuilder.ofAllocations,
      MultipartEntriesBuilder.withAclTemplate, hfail, storageClientErrorFromResponse]
  · unfold uploadImmutableFileModel
    rw [if_pos hfail]
    rfl
  · intro o2 action k resp2 _ hcn
    unfold authorize
    rw [hcn]
    rfl
  · intro o2 action k challenge signature resp2 _ hcn hsig hsub
    unfold authorize
    rw [hcn]
    dsimp only
    rw [hsig]
    dsimp only
    rw [hsub]
    rfl

/-- C8 witness: the amended surfacing facts at the concrete denied
response, and the delete exception at the concrete success oracle. -/
theorem backend_error_surfacing_witness :
    allocateStorageModel 1 deniedResponse [] =
      .error (.storageClientError (errorMessageFromResponse deniedResponse)) ∧
    deleteModel production successAuthOracles (chars "key1") (fun _ => deniedResponse) =
      (.ok { success := false },
       [.challengeRequested, .signatureRequested, .challengeSubmitted]) :=
  ⟨(backend_error_surfacing deniedResponse 1 [] none production successAuthOracles
      (chars "key1") sampleFile none sampleResource [] []
      { challengeId := chars "cid-1", secret := chars "nonce-1" }
      (immutable 232) sampleResource
      rfl (by decide) rfl rfl).2.1,
   (backend_error_surfacing deniedResponse 1 [] none production successAuthOracles
      (chars "key1") sampleFile none sampleResource [] []
      { challengeId := chars "cid-1", secret := chars "nonce-1" }
      (immutable 232) sampleResource
      rfl (by decide) rfl rfl).2.2.2.2.2.1
      { challengeId := chars "cid-1", secret := chars "nonce-1" }
      [.challengeRequested, .signatureRequested, .challengeSubmitted] rfl⟩

/-- C6 counterexample: the streaming-capability probe is not computed at
most once per process; two multipart request constructions run
detectStreamSupport twice, contrary to the claimed caching. -/
theorem stream_probe_not_cached_counterexample :
    (createMultipartRequestInit (chars "POST") true [] (chars "b")
        (createMultipartRequestInit (chars "POST") true [] (chars "b")
          { probeRuns := 0 }).2).2.probeRuns = 2 ∧
    ¬ ((createMultipartRequestInit (chars "POST") true [] (chars "b")
        (createMultipartRequestInit (chars "POST") true [] (chars "b")
          { probeRuns := 0 }).2).2.probeRuns ≤ 1) :=
  ⟨rfl, by decide⟩

/-- C6 amended: detectStreamSupport runs on every invocation of
createMultipartRequestInit, with no caching; each construction uses the
result of its own probe run, and a probe reporting no support makes that
request use the buffered FormData fallback body with neither the
boundary Content-Type nor the Content-Length header. -/
theorem stream_probe_per_request (method : Str) (support : Bool)
    (entries : List MultipartEntry) (boundary : Str) (st : ProbeState) :
    (createMultipartRequestInit method support entries boundary st).2.probeRuns =
      st.probeRuns + 1 ∧
    (createMultipartRequestInit method support entries boundary st).1.body =
      (if support then .stream (multipartStream entries boundary) boundary
       else .formData entries) ∧
    (createMultipartRequestInit method support entries boundary st).1.contentLength =
      (if support then some (computeMultipartSize entries boundary) else none) ∧
    (createMultipartRequestInit method support entries boundary st).1.contentType =
      (if support then some (chars "multipart/form-data; boundary=" ++ boundary)
       else none) := by
  cases support <;> exact ⟨rfl, rfl, rfl, rfl⟩

end Grove
